

import Mathlib

/-!
# Verification of the federated media catalog (`database/ia_filterdb.py`)

A shallow embedding of the catalog layer: the identifier codec
(`encode_file_id` / `unpack_new_file_id`), the per-partition stores with
duplicate / capacity outcomes (`save_file`), the free-text query builder and
search engine (`get_search_results`), and the reorganizer
(`move_file`, `copy_file`, `bulk_move_files`).

Bytes are modelled as `Nat` (with explicit bounds `< 256` where the source
relies on byte width), machine integers as `Int` with explicit `% 2^w`
two's-complement reduction, Mongo collections as lists of documents in
insertion order, and the driver exceptions (`DuplicateKeyError`,
`OperationFailure`) as explicit outcome constructors.  Python code that can
raise an exception the source does not catch is modelled with `Option`
(`none` = an uncaught exception propagates).
-/

namespace Multi

/-! ## Identifier codec (`encode_file_id`, `unpack_new_file_id`) -/

/-- The zero-run-length compression loop inside `encode_file_id`:
`for i in s: if i == 0: n += 1 else: (flush [0, n] if n) ; emit i`.
The pending count `n` is the loop state; as in the source, a pending run at
the very end is dropped (the input always ends with the nonzero marker `4`). -/

def rleLoop : List Nat → Nat → List Nat
  | [], _ => []
  | i :: rest, n =>
    if i = 0 then rleLoop rest (n + 1)
    else (if n ≠ 0 then [0, n] else []) ++ i :: rleLoop rest 0

/-- URL-safe base64 alphabet (`base64.urlsafe_b64encode`). -/

def b64Alphabet : List Char :=
  ['A','B','C','D','E','F','G','H','I','J','K','L','M','N','O','P','Q','R','S','T','U','V','W','X','Y','Z',
   'a','b','c','d','e','f','g','h','i','j','k','l','m','n','o','p','q','r','s','t','u','v','w','x','y','z',
   '0','1','2','3','4','5','6','7','8','9','-','_']

def b64Char (n : Nat) : Char := b64Alphabet.getD n 'A'

/-- Bytes to base64 sextets, with the trailing `=` padding already stripped
(the source does `.rstrip("=")`). -/

def b64EncodeBytes : List Nat → List Nat
  | [] => []
  | [a] => [a / 4, a % 4 * 16]
  | [a, b] => [a / 4, a % 4 * 16 + b / 16, b % 16 * 4]
  | a :: b :: c :: rest =>
    a / 4 :: (a % 4 * 16 + b / 16) :: (b % 16 * 4 + c / 64) :: c % 64 :: b64EncodeBytes rest

/-- `encode_file_id(s)`: append the marker bytes `22` and `4`, compress zero
runs, then URL-safe base64 without padding. -/

def encode_file_id (s : List Nat) : String :=
  String.mk ((b64EncodeBytes (rleLoop (s ++ [22, 4]) 0)).map b64Char)

/-- One little-endian field of `struct.pack`: `w` bytes, least significant first. -/

def natLE : Nat → Nat → List Nat
  | 0, _ => []
  | w + 1, v => v % 256 :: natLE w (v / 256)

/-- A signed field, reduced two's-complement style as `struct.pack` stores it. -/

def intLE (v : Int) (w : Nat) : List Nat := natLE w ((v % ((2 : Int) ^ (8 * w))).toNat)

/-- `pack("<iiqq", t, d, m, a)`. -/

def pack_iiqq (t d m a : Int) : List Nat := intLE t 4 ++ intLE d 4 ++ intLE m 8 ++ intLE a 8

/-- `unpack_new_file_id`, after the external `FileId.decode` (hydrogram library,
outside this repository) has produced the four fields `file_type`, `dc_id`,
`media_id`, `access_hash` of the opaque platform handle. -/

def unpack_new_file_id (fileType dcId mediaId accessHash : Int) : String :=
  encode_file_id (pack_iiqq fileType dcId mediaId accessHash)

/-- `struct.pack` range check for an `i` (int32) field. -/

def i32range (v : Int) : Prop := -(2 ^ 31) ≤ v ∧ v < 2 ^ 31

/-- `struct.pack` range check for a `q` (int64) field. -/

def i64range (v : Int) : Prop := -(2 ^ 63) ≤ v ∧ v < 2 ^ 63

instance (v : Int) : Decidable (i32range v) := by unfold i32range; infer_instance

instance (v : Int) : Decidable (i64range v) := by unfold i64range; infer_instance

/-! ### Decoders (proof tools, not part of the source) -/

/-- Inverse of the zero-run compression: `0, n` expands to `n` zero bytes. -/

def rleDecode : List Nat → List Nat
  | [] => []
  | 0 :: [] => []
  | 0 :: n :: rest => List.replicate n 0 ++ rleDecode rest
  | i :: rest => i :: rleDecode rest

/-- Inverse of `b64EncodeBytes`. -/

def b64DecodeSextets : List Nat → List Nat
  | [] => []
  | [_] => []
  | [a, b] => [a * 4 + b / 16]
  | [a, b, c] => [a * 4 + b / 16, b % 16 * 16 + c / 4]
  | a :: b :: c :: d :: rest =>
    (a * 4 + b / 16) :: (b % 16 * 16 + c / 4) :: (c % 4 * 64 + d) :: b64DecodeSextets rest

/-! ## Query builder (`get_search_results` lines 181-192)

The source builds, from stripped query text, the pattern
`(\b|[\.\+\-_])query(\b|[\.\+\-_])` for single tokens, the wildcard chain
`tok1.*[\s\.\+\-_]tok2...` for multi-token text, and the match-anything
pattern `.` for empty text, compiled with `re.IGNORECASE` and applied by the
store as an unanchored search over the field.  The definitions below are the
search semantics of exactly those pattern shapes for literal (metacharacter
free) query text; the `re.compile`-failure fallback to literal equality can
only trigger for queries containing metacharacters and is not modelled. -/

/-- `\w` for the ASCII range: letters, digits, underscore. -/

def isWordCh (c : Char) : Bool := c.isAlphanum || c = '_'

/-- The explicit separator class `[\.\+\-_]`. -/

def sep4 (c : Char) : Bool := c = '.' || c = '+' || c = '-' || c = '_'

/-- The class `[\s\.\+\-_]` used between tokens of a multi-token query. -/

def sepWS (c : Char) : Bool :=
  sep4 c || c = ' ' || c = '\t' || c = '\n' || c = '\r' || c = '\x0b' || c = '\x0c'

/-- `\b`: exactly one side of the position is a word character
(out of bounds counts as non-word). -/

def wordBoundary (prev next : Option Char) : Bool :=
  (match prev with | some c => isWordCh c | none => false)
    != (match next with | some c => isWordCh c | none => false)

/-- Consume the literal token case-insensitively, tracking the character just
before the new position (for the trailing `\b`); `none` if it does not match. -/

def dropTokCI (prev : Option Char) : List Char → List Char → Option (Option Char × List Char)
  | [], cs => some (prev, cs)
  | _ :: _, [] => none
  | t :: ts, c :: cs => if t.toLower = c.toLower then dropTokCI (some c) ts cs else none

/-- The trailing `(\b|[\.\+\-_])`: a word boundary here, or a separator next. -/

def rightBoundaryOk (prev : Option Char) (cs : List Char) : Bool :=
  wordBoundary prev cs.head? || (match cs with | c :: _ => sep4 c | [] => false)

/-- Try `(\b|[\.\+\-_])tok(\b|[\.\+\-_])` at one start position, `prev` being
the character before that position. -/

def tryAt (tok : List Char) (prev : Option Char) (post : List Char) : Bool :=
  (wordBoundary prev post.head? &&
    (match dropTokCI prev tok post with
     | some (p2, rest) => rightBoundaryOk p2 rest
     | none => false))
  || (match post with
      | c :: rest =>
        sep4 c &&
          (match dropTokCI (some c) tok rest with
           | some (p2, rest2) => rightBoundaryOk p2 rest2
           | none => false)
      | [] => false)

/-- `re.search` of the single-token pattern: some start position matches. -/

def singleMatch (tok : List Char) (name : List Char) : Bool :=
  (List.range (name.length + 1)).any fun i =>
    tryAt tok ((name.take i).getLast?) (name.drop i)

/-- Case-insensitive literal prefix consumption (no boundary tracking: the
multi-token pattern has no `\b`). -/

def dropTokPlain : List Char → List Char → Option (List Char)
  | [], cs => some cs
  | _ :: _, [] => none
  | t :: ts, c :: cs => if t.toLower = c.toLower then dropTokPlain ts cs else none

/-- After a matched token: `.*[\s\.\+\-_]tok` for each remaining token — a gap
of non-newline characters (`.` does not cross newlines), one separator or
whitespace character, then the next token. -/

def tokChain : List (List Char) → List Char → Bool
  | [], _ => true
  | tok :: more, cs =>
    (List.range (cs.length + 1)).any fun j =>
      ((cs.take j).all fun ch => ch != '\n') &&
        (match cs.drop j with
         | [] => false
         | c :: rest =>
           sepWS c &&
             (match dropTokPlain tok rest with
              | some r2 => tokChain more r2
              | none => false))

/-- `re.search` of the multi-token pattern `tok1.*[\s\.\+\-_]tok2...`. -/

def multiMatch (toks : List (List Char)) (name : List Char) : Bool :=
  match toks with
  | [] => false
  | t1 :: more =>
    (List.range (name.length + 1)).any fun i =>
      match dropTokPlain t1 (name.drop i) with
      | some r => tokChain more r
      | none => false

/-- Python `str.strip()`: drop leading and trailing whitespace characters. -/

def stripChars (cs : List Char) : List Char :=
  ((cs.dropWhile Char.isWhitespace).reverse.dropWhile Char.isWhitespace).reverse

/-- Split on every single space character, exactly like splitting the query at
each `' '` that `query.replace(' ', ...)` rewrites (empty pieces included). -/

def splitSp : List Char → List (List Char)
  | [] => [[]]
  | c :: rest =>
    if c = ' ' then [] :: splitSp rest
    else
      match splitSp rest with
      | g :: gs => (c :: g) :: gs
      | [] => [[c]]

/-- The query-to-predicate construction of `get_search_results` (also used
verbatim by `get_search_counts`, `delete_files` and `bulk_move_files`):
strip, then empty / single-token / multi-token pattern, case-insensitive. -/

def buildPred (query : String) : String → Bool :=
  let q := stripChars query.toList
  if q.isEmpty then fun name => name.toList.any fun c => c != '\n'
  else if !(q.contains ' ') then fun name => singleMatch q name.toList
  else fun name => multiMatch (splitSp q) name.toList

/-! ## Catalog store model

A Mongo collection is a list of documents in insertion order plus a `full`
flag modelling the engine's capacity signal (`OperationFailure` with a quota
message).  `_id` uniqueness is the store's own constraint: an insert of an
existing `_id` is refused as `DuplicateKeyError`.  The first database holds
the three partition collections; `second` is `some _` exactly when
`SECOND_FILES_DATABASE_URL` is configured. -/

/-- One catalog document, with the fields `save_file` writes plus the
optional stamps added by the reorganizer and the search tagging. -/

structure Doc where
  id : String
  file_name : String
  file_size : Nat
  caption : String
  collection_type : String
  file_type : String
  added_date : Nat
  moved_date : Option Nat := none
  copied_date : Option Nat := none
  source_collection : Option String := none
deriving DecidableEq

inductive CName
  | primary
  | clouds
  | archive
deriving DecidableEq, Fintype

/-- `get_collection_by_name`: the lookup table with `primary` as the default
for unknown names. -/

def parseCollectionName (s : String) : CName :=
  if s = "primary" then .primary
  else if s = "clouds" then .clouds
  else if s = "archive" then .archive
  else .primary

/-- The `.get(collection_name)` lookups with **no** default (specific-search
and delete paths): unknown names yield `none`. -/

def secondColFor (s : String) : Option CName :=
  if s = "primary" then some .primary
  else if s = "clouds" then some .clouds
  else if s = "archive" then some .archive
  else none

structure Collection where
  docs : List Doc
  full : Bool
deriving DecidableEq

/-- The three per-partition collections of one database. -/

structure TriDB where
  prim : Collection
  clouds : Collection
  archive : Collection
deriving DecidableEq

structure DBState where
  first : TriDB
  second : Option TriDB
deriving DecidableEq

def getCol (t : TriDB) : CName → Collection
  | .primary => t.prim
  | .clouds => t.clouds
  | .archive => t.archive

def setCol (t : TriDB) : CName → Collection → TriDB
  | .primary, c => { t with prim := c }
  | .clouds, c => { t with clouds := c }
  | .archive, c => { t with archive := c }

def setFirst (s : DBState) (c : CName) (col : Collection) : DBState :=
  { s with first := setCol s.first c col }

def colHasId (c : Collection) (i : String) : Bool := c.docs.any fun d => d.id = i

/-- `insert_one` outcomes: success with the new collection contents, the
unique-`_id` refusal (`DuplicateKeyError`), or the capacity signal
(`OperationFailure`). -/

inductive InsRes
  | ok (c : Collection)
  | dupKey
  | opFailure
deriving DecidableEq

def insert_one (c : Collection) (d : Doc) : InsRes :=
  if colHasId c d.id then .dupKey
  else if c.full then .opFailure
  else .ok ⟨c.docs ++ [d], c.full⟩

/-! ## Ingest (`save_file`) -/

/-- `re.sub(r"@\w+|(_|\-|\.|\+)", " ", text)` as a left-to-right scan:
an `@` followed by at least one word character swallows the whole
`@`-plus-word-run into one space (the `skip` state consumes the run), and a
lone separator becomes one space. -/

def sepSubGo : Bool → List Char → List Char
  | _, [] => []
  | skip, c :: rest =>
    if skip && isWordCh c then sepSubGo skip rest
    else if c = '@' && (match rest with | r :: _ => isWordCh r | [] => false) then
      ' ' :: sepSubGo true rest
    else if c = '_' || c = '-' || c = '.' || c = '+' then ' ' :: sepSubGo false rest
    else c :: sepSubGo false rest

def subSeparators (s : String) : String := String.mk (sepSubGo false s.toList)

/-- The fields of the platform media object that `save_file` reads.  The
opaque `file_id` handle is represented by the four fields the external
`FileId.decode` extracts from it; `mime_type` stands for
`getattr(media, 'mime_type', 'unknown')`. -/

structure Media where
  fileType : Int
  dcId : Int
  mediaId : Int
  accessHash : Int
  file_name : String
  caption : String
  file_size : Nat
  mime_type : String
deriving DecidableEq

/-- The derived key of a media object: `unpack_new_file_id(media.file_id)`. -/

def mediaKey (m : Media) : String :=
  unpack_new_file_id m.fileType m.dcId m.mediaId m.accessHash

/-- The document `save_file` builds. -/

def saveDoc (media : Media) (collection_name : String) (now : Nat) : Doc :=
  { id := mediaKey media,
    file_name := subSeparators media.file_name,
    file_size := media.file_size,
    caption := subSeparators media.caption,
    collection_type := collection_name,
    file_type := media.mime_type,
    added_date := now }

/-- `save_file(media, collection_name)`.  Result `some ((status, name), s')`
with status `'suc'`, `'dup'` or `'err'`; `none` models the one uncaught path:
an `OperationFailure` raised by the second database insert (the inner `try`
only catches `DuplicateKeyError`). -/

def save_file (s : DBState) (media : Media) (collection_name : String) (now : Nat) :
    Option ((String × String) × DBState) :=
  match insert_one (getCol s.first (parseCollectionName collection_name))
      (saveDoc media collection_name now) with
  | .ok c2 => some (("suc", collection_name),
      setFirst s (parseCollectionName collection_name) c2)
  | .dupKey => some (("dup", collection_name), s)
  | .opFailure =>
    match s.second with
    | some sec =>
      match insert_one (getCol sec (parseCollectionName collection_name))
          (saveDoc media collection_name now) with
      | .ok c2 => some (("suc", "second_" ++ collection_name),
          { s with second := some (setCol sec (parseCollectionName collection_name) c2) })
      | .dupKey => some (("dup", "second_" ++ collection_name), s)
      | .opFailure => none
    | none => some (("err", collection_name), s)

/-! ## Search engine (`get_search_results`) -/

/-- Module configuration read from `info`: `USE_CAPTION_FILTER`. -/

structure Config where
  useCaptionFilter : Bool
deriving DecidableEq

/-- The Mongo filter document: name matches, or — with the caption toggle on —
name or caption matches (`{'$or': [{'file_name': regex}, {'caption': regex}]}`). -/

def docMatches (cfg : Config) (pred : String → Bool) (d : Doc) : Bool :=
  pred d.file_name || (cfg.useCaptionFilter && pred d.caption)

/-- `doc['source_collection'] = name` over a result list. -/

def tagSource (n : String) (l : List Doc) : List Doc :=
  l.map fun d => { d with source_collection := some n }

/-- The specific-collection branch: primary-database hits, then (if a second
database is configured and the name is known to the no-default lookup) the
second-database hits, all tagged afterwards with the requested name. -/

def gatherOne (cfg : Config) (s : DBState) (pred : String → Bool) (cn : String) : List Doc :=
  tagSource cn
    ((getCol s.first (parseCollectionName cn)).docs.filter (docMatches cfg pred) ++
      (match s.second, secondColFor cn with
       | some sec, some c2 => (getCol sec c2).docs.filter (docMatches cfg pred)
       | _, _ => []))

/-- One partition of the all-collections branch: first-database hits tagged,
then second-database hits tagged, and the per-partition count summing both. -/

def gatherAllCol (cfg : Config) (s : DBState) (pred : String → Bool) (col_name : String) :
    List Doc × Nat :=
  match s.second with
  | some sec =>
    (tagSource col_name
        ((getCol s.first (parseCollectionName col_name)).docs.filter (docMatches cfg pred))
      ++ tagSource col_name
        ((getCol sec (parseCollectionName col_name)).docs.filter (docMatches cfg pred)),
     ((getCol s.first (parseCollectionName col_name)).docs.filter (docMatches cfg pred)).length
      + ((getCol sec (parseCollectionName col_name)).docs.filter (docMatches cfg pred)).length)
  | none =>
    (tagSource col_name
        ((getCol s.first (parseCollectionName col_name)).docs.filter (docMatches cfg pred)),
     ((getCol s.first (parseCollectionName col_name)).docs.filter (docMatches cfg pred)).length)

/-- The all-collections branch, iterating `['primary', 'clouds', 'archive']`
in router order and accumulating results and per-partition counts. -/

def gatherAll (cfg : Config) (s : DBState) (pred : String → Bool) :
    List Doc × List (String × Nat) :=
  ((gatherAllCol cfg s pred "primary").1 ++ (gatherAllCol cfg s pred "clouds").1
    ++ (gatherAllCol cfg s pred "archive").1,
   [("primary", (gatherAllCol cfg s pred "primary").2),
    ("clouds", (gatherAllCol cfg s pred "clouds").2),
    ("archive", (gatherAllCol cfg s pred "archive").2)])

/-- The merged pre-pagination result list, per requested collection. -/

def mergedResults (cfg : Config) (s : DBState) (pred : String → Bool) :
    Option String → List Doc
  | some cn => gatherOne cfg s pred cn
  | none => (gatherAll cfg s pred).1

/-- Python `str.lower()` (character-wise, as for the ASCII data at hand). -/

def strLower (s : String) : String := String.mk (s.toList.map Char.toLower)

/-- Python `needle in hay` substring test. -/

def strContainsSub (hay needle : String) : Bool :=
  (List.range (hay.toList.length + 1)).any fun i => needle.toList.isPrefixOf (hay.toList.drop i)

/-- The result tuple `(files, next_offset, total_results, counts)`;
`next_offset = none` models the `''` exhaustion marker, `counts = none` the
three-element tuple returned for a specific collection. -/

structure SearchOut where
  files : List Doc
  next_offset : Option Nat
  total_results : Nat
  counts : Option (List (String × Nat))
deriving DecidableEq

def countsOut (cfg : Config) (s : DBState) (query : String) :
    Option String → Option (List (String × Nat))
  | some _ => none
  | none => some (gatherAll cfg s (buildPred query)).2

/-- `get_search_results(query, collection_name, max_results, offset, lang)`:
merge, optional language filter (`lang in file['file_name'].lower()`), total
before slicing, window `[offset:][:max_results]`, and
`next_offset = offset + max_results` unless that reaches the total. -/

def get_search_results (cfg : Config) (s : DBState) (query : String)
    (collection_name : Option String) (max_results offset : Nat) (lang : Option String) :
    SearchOut :=
  let results := mergedResults cfg s (buildPred query) collection_name
  match lang with
  | some lg =>
    let lang_files := results.filter fun f => strContainsSub (strLower f.file_name) lg
    { files := (lang_files.drop offset).take max_results,
      next_offset := if offset + max_results ≥ lang_files.length then none
        else some (offset + max_results),
      total_results := lang_files.length,
      counts := countsOut cfg s query collection_name }
  | none =>
    { files := (results.drop offset).take max_results,
      next_offset := if offset + max_results ≥ results.length then none
        else some (offset + max_results),
      total_results := results.length,
      counts := countsOut cfg s query collection_name }

/-- A browse-all ("" query) catalog of seven records in the primary partition,
for the pagination example. -/

def ex7 : DBState :=
  ⟨⟨⟨[{ id := "k1", file_name := "n1", file_size := 0, caption := "", collection_type := "primary", file_type := "v", added_date := 0 },
     { id := "k2", file_name := "n2", file_size := 0, caption := "", collection_type := "primary", file_type := "v", added_date := 0 },
     { id := "k3", file_name := "n3", file_size := 0, caption := "", collection_type := "primary", file_type := "v", added_date := 0 },
     { id := "k4", file_name := "n4", file_size := 0, caption := "", collection_type := "primary", file_type := "v", added_date := 0 },
     { id := "k5", file_name := "n5", file_size := 0, caption := "", collection_type := "primary", file_type := "v", added_date := 0 },
     { id := "k6", file_name := "n6", file_size := 0, caption := "", collection_type := "primary", file_type := "v", added_date := 0 },
     { id := "k7", file_name := "n7", file_size := 0, caption := "", collection_type := "primary", file_type := "v", added_date := 0 }], false⟩,
    ⟨[], false⟩, ⟨[], false⟩⟩, none⟩

/-- A one-record catalog whose stored name is `"English"`, for the language
filter counterexample. -/

def exEng : DBState :=
  ⟨⟨⟨[{ id := "k1", file_name := "English", file_size := 0, caption := "",
        collection_type := "primary", file_type := "v", added_date := 0 }], false⟩,
    ⟨[], false⟩, ⟨[], false⟩⟩, none⟩

/-! ## Lookup (`get_file_details`) and reorganizer (`move_file`, `copy_file`,
`bulk_move_files`) -/

/-- `col.find_one({'_id': q})`: first document with the given key. -/

def findId (l : List Doc) (q : String) : Option Doc := l.find? fun d => d.id = q

/-- Scan the three collections of one database in the fixed order
primary, clouds, archive. -/

def triFind (t : TriDB) (q : String) : Option Doc :=
  match findId (getCol t .primary).docs q with
  | some f => some f
  | none =>
    match findId (getCol t .clouds).docs q with
    | some f => some f
    | none => findId (getCol t .archive).docs q

/-- `get_file_details(query)`: all first-database collections, then the second
database if configured, else `None`. -/

def get_file_details (s : DBState) (q : String) : Option Doc :=
  match triFind s.first q with
  | some f => some f
  | none =>
    match s.second with
    | some sec => triFind sec q
    | none => none

/-- Stand-in for `str(e)` of a caught `DuplicateKeyError`; the exact driver
text is irrelevant to the claims, which only inspect the `False` flag. -/

def dupKeyErrMsg : String := "E11000 duplicate key error"

/-- Stand-in for `str(e)` of a caught `OperationFailure`. -/

def opFailureErrMsg : String := "operation failure"

/-- `col.delete_one({'_id': i})`: remove the first document with that key. -/

def deleteId (c : Collection) (i : String) : Collection :=
  ⟨c.docs.eraseP fun d => d.id = i, c.full⟩

/-- `move_file(file_id, from_collection, to_collection)`: read from the
source, insert the stamped copy into the destination, then delete from the
source; any insert exception is caught and reported as `(False, str(e))`
with nothing deleted. -/

def move_file (s : DBState) (file_id : String) (from_collection to_collection : String)
    (now : Nat) : (Bool × String) × DBState :=
  match findId (getCol s.first (parseCollectionName from_collection)).docs file_id with
  | none => ((false, "File not found in source collection"), s)
  | some file =>
    match insert_one (getCol s.first (parseCollectionName to_collection))
        { file with collection_type := to_collection, moved_date := some now } with
    | .ok c2 =>
      ((true, "File moved successfully"),
        setFirst (setFirst s (parseCollectionName to_collection) c2)
          (parseCollectionName from_collection)
          (deleteId (getCol (setFirst s (parseCollectionName to_collection) c2).first
            (parseCollectionName from_collection)) file_id))
    | .dupKey => ((false, dupKeyErrMsg), s)
    | .opFailure => ((false, opFailureErrMsg), s)

/-- `copy_file(file_id, from_collection, to_collection)`: source lookup, then
an explicit pre-check of the target for the same `_id` (the copy keeps the
key), then the insert. -/

def copy_file (s : DBState) (file_id : String) (from_collection to_collection : String)
    (now : Nat) : (Bool × Option String × String) × DBState :=
  match findId (getCol s.first (parseCollectionName from_collection)).docs file_id with
  | none => ((false, none, "File not found"), s)
  | some file =>
    match findId (getCol s.first (parseCollectionName to_collection)).docs file_id with
    | some _ => ((false, none, "File already exists in target collection"), s)
    | none =>
      match insert_one (getCol s.first (parseCollectionName to_collection))
          { file with collection_type := to_collection, copied_date := some now } with
      | .ok c2 => ((true, some file_id, "File copied successfully"),
          setFirst s (parseCollectionName to_collection) c2)
      | .dupKey => ((false, none, dupKeyErrMsg), s)
      | .opFailure => ((false, none, opFailureErrMsg), s)

/-- The loop of `bulk_move_files` over the up-front materialized match list:
insert into the target, delete from the source, count; a `DuplicateKeyError`
skips the record and continues; an `OperationFailure` is not caught (`none`). -/

def bulkLoop (to_collection : String) (toC fromC : CName) (now : Nat) :
    List Doc → Nat → DBState → Option (Nat × DBState)
  | [], cnt, st => some (cnt, st)
  | f :: rest, cnt, st =>
    match insert_one (getCol st.first toC)
        { f with collection_type := to_collection, moved_date := some now } with
    | .ok c2 =>
      bulkLoop to_collection toC fromC now rest (cnt + 1)
        (setFirst (setFirst st toC c2) fromC
          (deleteId (getCol (setFirst st toC c2).first fromC) f.id))
    | .dupKey => bulkLoop to_collection toC fromC now rest cnt st
    | .opFailure => none

/-- `bulk_move_files(query, from_collection, to_collection)`: materialize the
matching source records (name-only filter built by the shared query builder),
then move each one. -/

def bulk_move_files (s : DBState) (query : String) (from_collection to_collection : String)
    (now : Nat) : Option (Nat × DBState) :=
  bulkLoop to_collection (parseCollectionName to_collection)
    (parseCollectionName from_collection) now
    ((getCol s.first (parseCollectionName from_collection)).docs.filter
      fun d => buildPred query d.file_name)
    0 s

/-- Three matching records in `clouds`, one of whose keys (`"b"`) already
exists in `archive`: the bulk-move example. -/

def exB : DBState :=
  ⟨⟨⟨[], false⟩,
    ⟨[{ id := "a", file_name := "x1", file_size := 0, caption := "",
        collection_type := "clouds", file_type := "v", added_date := 0 },
      { id := "b", file_name := "x2", file_size := 0, caption := "",
        collection_type := "clouds", file_type := "v", added_date := 0 },
      { id := "c", file_name := "x3", file_size := 0, caption := "",
        collection_type := "clouds", file_type := "v", added_date := 0 }], false⟩,
    ⟨[{ id := "b", file_name := "y", file_size := 0, caption := "",
        collection_type := "archive", file_type := "v", added_date := 0 }], false⟩⟩, none⟩

/-! ## Theorems -/

theorem rleDecode_cons_nz {i : Nat} (rest : List Nat) (h : i ≠ 0) :
    rleDecode (i :: rest) = i :: rleDecode rest := by
  cases i with
  | zero => exact absurd rfl h
  | succ k => cases rest <;> rfl

theorem rleDecode_escape (n : Nat) (rest : List Nat) :
    rleDecode (0 :: n :: rest) = List.replicate n 0 ++ rleDecode rest := rfl

theorem rleDecode_nil : rleDecode [] = [] := rfl

theorem rleLoop_nil (n : Nat) : rleLoop [] n = [] := rfl

theorem rleLoop_cons (i : Nat) (rest : List Nat) (n : Nat) :
    rleLoop (i :: rest) n =
      if i = 0 then rleLoop rest (n + 1)
      else (if n ≠ 0 then [0, n] else []) ++ i :: rleLoop rest 0 := rfl

/-- The compression loop is inverted by `rleDecode` on any input that ends in a
nonzero byte (the appended marker `4` guarantees this), for any pending count. -/

theorem rleLoop_roundtrip (s : List Nat) (e : Nat) (he : e ≠ 0) :
    ∀ n, rleDecode (rleLoop (s ++ [e]) n) = List.replicate n 0 ++ s ++ [e] := by
  induction s with
  | nil =>
    intro n
    rw [List.nil_append, rleLoop_cons, if_neg he]
    cases n with
    | zero =>
      rw [if_neg (fun h => h rfl), List.nil_append, rleLoop_nil,
        rleDecode_cons_nz _ he, rleDecode_nil]
      simp
    | succ m =>
      rw [if_pos (Nat.succ_ne_zero m), rleLoop_nil]
      show rleDecode (0 :: (m + 1) :: [e]) = _
      rw [rleDecode_escape, rleDecode_cons_nz _ he, rleDecode_nil]
      simp
  | cons i s ih =>
    intro n
    rw [List.cons_append, rleLoop_cons]
    by_cases hi : i = 0
    · rw [if_pos hi, ih (n + 1)]
      subst hi
      rw [List.replicate_succ']
      simp [List.append_assoc]
    · rw [if_neg hi]
      cases n with
      | zero =>
        rw [if_neg (fun h => h rfl), List.nil_append, rleDecode_cons_nz _ hi, ih 0]
        simp
      | succ m =>
        rw [if_pos (Nat.succ_ne_zero m)]
        show rleDecode (0 :: (m + 1) :: (i :: rleLoop (s ++ [e]) 0)) = _
        rw [rleDecode_escape, rleDecode_cons_nz _ hi, ih 0, List.replicate_succ']
        simp [List.append_assoc]

theorem b64_roundtrip : ∀ bs : List Nat, (∀ x ∈ bs, x < 256) →
    b64DecodeSextets (b64EncodeBytes bs) = bs := by
  intro bs
  induction bs using b64EncodeBytes.induct with
  | case1 => intro _; rfl
  | case2 a =>
    intro _
    simp only [b64EncodeBytes, b64DecodeSextets, List.cons.injEq, and_true]
    omega
  | case3 a b =>
    intro h
    have hb : b < 256 := h b (by simp)
    simp only [b64EncodeBytes, b64DecodeSextets, List.cons.injEq, and_true]
    refine ⟨by omega, by omega⟩
  | case4 a b c rest ih =>
    intro h
    have hb : b < 256 := h b (by simp)
    have hc : c < 256 := h c (by simp)
    have hrest : ∀ x ∈ rest, x < 256 := fun x hx => h x (by simp [hx])
    simp only [b64EncodeBytes, b64DecodeSextets, ih hrest, List.cons.injEq, and_true]
    refine ⟨by omega, by omega, by omega⟩

theorem b64EncodeBytes_lt64 : ∀ bs : List Nat, (∀ x ∈ bs, x < 256) →
    ∀ y ∈ b64EncodeBytes bs, y < 64 := by
  intro bs
  induction bs using b64EncodeBytes.induct with
  | case1 => intro _ y hy; simp [b64EncodeBytes] at hy
  | case2 a =>
    intro h y hy
    have ha : a < 256 := h a (by simp)
    simp [b64EncodeBytes] at hy
    rcases hy with hy | hy <;> omega
  | case3 a b =>
    intro h y hy
    have ha : a < 256 := h a (by simp)
    have hb : b < 256 := h b (by simp)
    simp [b64EncodeBytes] at hy
    rcases hy with hy | hy | hy <;> omega
  | case4 a b c rest ih =>
    intro h y hy
    have ha : a < 256 := h a (by simp)
    have hb : b < 256 := h b (by simp)
    have hc : c < 256 := h c (by simp)
    have hrest : ∀ x ∈ rest, x < 256 := fun x hx => h x (by simp [hx])
    simp [b64EncodeBytes] at hy
    rcases hy with hy | hy | hy | hy | hy
    · omega
    · omega
    · omega
    · omega
    · exact ih hrest y hy

theorem rleLoop_lt256 : ∀ (l : List Nat) (n : Nat), (∀ x ∈ l, x < 256) →
    n + l.length ≤ 255 → ∀ y ∈ rleLoop l n, y < 256 := by
  intro l
  induction l with
  | nil => intro n _ _ y hy; simp [rleLoop] at hy
  | cons i rest ih =>
    intro n h hlen y hy
    have hi : i < 256 := h i (by simp)
    have hrest : ∀ x ∈ rest, x < 256 := fun x hx => h x (by simp [hx])
    simp only [rleLoop] at hy
    by_cases hz : i = 0
    · rw [if_pos hz] at hy
      exact ih (n + 1) hrest (by simp at hlen ⊢; omega) y hy
    · rw [if_neg hz] at hy
      by_cases hn : n ≠ 0
      · rw [if_pos hn] at hy
        simp at hy hlen
        rcases hy with hy | hy | hy
        · omega
        · omega
        · rcases hy with hy | hy
          · omega
          · exact ih 0 hrest (by omega) y hy
      · rw [if_neg hn] at hy
        simp at hy hlen
        rcases hy with hy | hy
        · omega
        · exact ih 0 hrest (by omega) y hy

theorem natLE_length (w v : Nat) : (natLE w v).length = w := by
  induction w generalizing v with
  | zero => rfl
  | succ k ih => simp [natLE, ih]

theorem natLE_lt256 (w v : Nat) : ∀ x ∈ natLE w v, x < 256 := by
  induction w generalizing v with
  | zero => intro x hx; simp [natLE] at hx
  | succ k ih =>
    intro x hx
    simp only [natLE, List.mem_cons] at hx
    rcases hx with hx | hx
    · omega
    · exact ih (v / 256) x hx

theorem natLE_inj (w : Nat) : ∀ v1 v2 : Nat, v1 < 256 ^ w → v2 < 256 ^ w →
    natLE w v1 = natLE w v2 → v1 = v2 := by
  induction w with
  | zero => intro v1 v2 h1 h2 _; simp [pow_zero] at h1 h2; omega
  | succ k ih =>
    intro v1 v2 h1 h2 h
    simp only [natLE, List.cons.injEq] at h
    have hd : v1 / 256 = v2 / 256 := by
      apply ih
      · have : 256 ^ (k + 1) = 256 ^ k * 256 := by ring
        omega
      · have : 256 ^ (k + 1) = 256 ^ k * 256 := by ring
        omega
      · exact h.2
    omega

theorem intLE_inj4 (v1 v2 : Int) (h1 : i32range v1) (h2 : i32range v2)
    (h : intLE v1 4 = intLE v2 4) : v1 = v2 := by
  unfold intLE at h
  have hm : (2 : Int) ^ (8 * 4) = 4294967296 := by norm_num
  rw [hm] at h
  have hp : (256 : Nat) ^ 4 = 4294967296 := by norm_num
  have e : (v1 % 4294967296).toNat = (v2 % 4294967296).toNat :=
    natLE_inj 4 _ _ (by rw [hp]; omega) (by rw [hp]; omega) h
  unfold i32range at h1 h2
  have h31 : (2 : Int) ^ 31 = 2147483648 := by norm_num
  rw [h31] at h1 h2
  omega

theorem intLE_inj8 (v1 v2 : Int) (h1 : i64range v1) (h2 : i64range v2)
    (h : intLE v1 8 = intLE v2 8) : v1 = v2 := by
  unfold intLE at h
  have hm : (2 : Int) ^ (8 * 8) = 18446744073709551616 := by norm_num
  rw [hm] at h
  have hp : (256 : Nat) ^ 8 = 18446744073709551616 := by norm_num
  have e : (v1 % 18446744073709551616).toNat = (v2 % 18446744073709551616).toNat :=
    natLE_inj 8 _ _ (by rw [hp]; omega) (by rw [hp]; omega) h
  unfold i64range at h1 h2
  have h63 : (2 : Int) ^ 63 = 9223372036854775808 := by norm_num
  rw [h63] at h1 h2
  omega

theorem intLE_length (v : Int) (w : Nat) : (intLE v w).length = w := natLE_length _ _

theorem intLE_lt256 (v : Int) (w : Nat) : ∀ x ∈ intLE v w, x < 256 := natLE_lt256 _ _

theorem pack_iiqq_lt256 (t d m a : Int) : ∀ x ∈ pack_iiqq t d m a, x < 256 := by
  intro x hx
  unfold pack_iiqq at hx
  simp only [List.mem_append] at hx
  rcases hx with ((hx | hx) | hx) | hx <;> exact intLE_lt256 _ _ x hx

theorem pack_iiqq_length (t d m a : Int) : (pack_iiqq t d m a).length = 24 := by
  simp [pack_iiqq, intLE_length]

/-- The four packed fields are recoverable: `pack("<iiqq", ...)` is injective
over in-range field tuples. -/

theorem pack_iiqq_inj (t1 d1 m1 a1 t2 d2 m2 a2 : Int)
    (ht1 : i32range t1) (hd1 : i32range d1) (hm1 : i64range m1) (ha1 : i64range a1)
    (ht2 : i32range t2) (hd2 : i32range d2) (hm2 : i64range m2) (ha2 : i64range a2)
    (h : pack_iiqq t1 d1 m1 a1 = pack_iiqq t2 d2 m2 a2) :
    t1 = t2 ∧ d1 = d2 ∧ m1 = m2 ∧ a1 = a2 := by
  unfold pack_iiqq at h
  rw [List.append_assoc, List.append_assoc, List.append_assoc, List.append_assoc] at h
  obtain ⟨et, h⟩ := List.append_inj h (by rw [intLE_length, intLE_length])
  obtain ⟨ed, h⟩ := List.append_inj h (by rw [intLE_length, intLE_length])
  obtain ⟨em, ea⟩ := List.append_inj h (by rw [intLE_length, intLE_length])
  exact ⟨intLE_inj4 _ _ ht1 ht2 et, intLE_inj4 _ _ hd1 hd2 ed,
    intLE_inj8 _ _ hm1 hm2 em, intLE_inj8 _ _ ha1 ha2 ea⟩

theorem b64Char_left_inv : ∀ k : Fin 64, b64Alphabet.indexOf (b64Char k.val) = k.val := by
  decide

theorem map_b64Char_inj : ∀ l1 l2 : List Nat, (∀ x ∈ l1, x < 64) → (∀ x ∈ l2, x < 64) →
    l1.map b64Char = l2.map b64Char → l1 = l2 := by
  intro l1
  induction l1 with
  | nil =>
    intro l2 _ _ h
    cases l2 with
    | nil => rfl
    | cons y ys => simp at h
  | cons x xs ih =>
    intro l2 h1 h2 h
    cases l2 with
    | nil => simp at h
    | cons y ys =>
      simp only [List.map_cons, List.cons.injEq] at h
      have hx : x < 64 := h1 x (by simp)
      have hy : y < 64 := h2 y (by simp)
      have hxy : x = y := by
        have e1 := b64Char_left_inv ⟨x, hx⟩
        have e2 := b64Char_left_inv ⟨y, hy⟩
        simp only at e1 e2
        rw [← e1, ← e2, h.1]
      rw [hxy, ih ys (fun z hz => h1 z (by simp [hz])) (fun z hz => h2 z (by simp [hz])) h.2]

/-- `encode_file_id` is injective on byte strings short enough that every zero
run fits in one length byte (the packed record is 24 bytes, far below 253). -/

theorem encode_file_id_inj (s1 s2 : List Nat)
    (hb1 : ∀ x ∈ s1, x < 256) (hb2 : ∀ x ∈ s2, x < 256)
    (hl1 : s1.length ≤ 253) (hl2 : s2.length ≤ 253)
    (h : encode_file_id s1 = encode_file_id s2) : s1 = s2 := by
  unfold encode_file_id at h
  replace h : (b64EncodeBytes (rleLoop (s1 ++ [22, 4]) 0)).map b64Char
      = (b64EncodeBytes (rleLoop (s2 ++ [22, 4]) 0)).map b64Char := congrArg String.data h
  have hin1 : ∀ x ∈ s1 ++ [22, 4], x < 256 := by
    intro x hx
    rcases List.mem_append.mp hx with hx | hx
    · exact hb1 x hx
    · simp at hx; omega
  have hin2 : ∀ x ∈ s2 ++ [22, 4], x < 256 := by
    intro x hx
    rcases List.mem_append.mp hx with hx | hx
    · exact hb2 x hx
    · simp at hx; omega
  have hr1 : ∀ y ∈ rleLoop (s1 ++ [22, 4]) 0, y < 256 :=
    rleLoop_lt256 _ 0 hin1 (by simp; omega)
  have hr2 : ∀ y ∈ rleLoop (s2 ++ [22, 4]) 0, y < 256 :=
    rleLoop_lt256 _ 0 hin2 (by simp; omega)
  have hsx : b64EncodeBytes (rleLoop (s1 ++ [22, 4]) 0)
      = b64EncodeBytes (rleLoop (s2 ++ [22, 4]) 0) :=
    map_b64Char_inj _ _ (b64EncodeBytes_lt64 _ hr1) (b64EncodeBytes_lt64 _ hr2) h
  have hr : rleLoop (s1 ++ [22, 4]) 0 = rleLoop (s2 ++ [22, 4]) 0 := by
    have hdec := congrArg b64DecodeSextets hsx
    rwa [b64_roundtrip _ hr1, b64_roundtrip _ hr2] at hdec
  have ha1 : s1 ++ [22, 4] = (s1 ++ [22]) ++ [4] := by simp
  have ha2 : s2 ++ [22, 4] = (s2 ++ [22]) ++ [4] := by simp
  have hfull : (s1 ++ [22]) ++ [4] = (s2 ++ [22]) ++ [4] := by
    have h3 := congrArg rleDecode hr
    rw [ha1, ha2, rleLoop_roundtrip (s1 ++ [22]) 4 (by omega) 0,
      rleLoop_roundtrip (s2 ++ [22]) 4 (by omega) 0] at h3
    simpa using h3
  have hlen : (s1 ++ [22]).length = (s2 ++ [22]).length := by
    have h4 := congrArg List.length hfull
    simp at h4
    simp [h4]
  obtain ⟨h5, -⟩ := List.append_inj hfull hlen
  have hlen2 : s1.length = s2.length := by
    have h6 := congrArg List.length h5
    simpa using h6
  exact (List.append_inj h5 hlen2).1

/-- C1: for valid platform handles, derived keys are equal iff the decoded
`(typeTag, shardId, mediaId, accessToken)` tuples are equal:
`unpack_new_file_id` is deterministic, and `encode_file_id` composed with the
fixed-width little-endian `pack("<iiqq", ...)` (markers, zero-run compression,
padding-stripped URL-safe base64) is injective over in-range tuples. -/

theorem c1_derived_key_eq_iff_tuple_eq (t1 d1 m1 a1 t2 d2 m2 a2 : Int)
    (ht1 : i32range t1) (hd1 : i32range d1) (hm1 : i64range m1) (ha1 : i64range a1)
    (ht2 : i32range t2) (hd2 : i32range d2) (hm2 : i64range m2) (ha2 : i64range a2) :
    unpack_new_file_id t1 d1 m1 a1 = unpack_new_file_id t2 d2 m2 a2 ↔
      (t1, d1, m1, a1) = (t2, d2, m2, a2) := by
  constructor
  · intro h
    unfold unpack_new_file_id at h
    have hp := encode_file_id_inj _ _ (pack_iiqq_lt256 t1 d1 m1 a1)
      (pack_iiqq_lt256 t2 d2 m2 a2)
      (by rw [pack_iiqq_length]; omega) (by rw [pack_iiqq_length]; omega) h
    obtain ⟨e1, e2, e3, e4⟩ :=
      pack_iiqq_inj t1 d1 m1 a1 t2 d2 m2 a2 ht1 hd1 hm1 ha1 ht2 hd2 hm2 ha2 hp
    rw [e1, e2, e3, e4]
  · intro h
    simp only [Prod.mk.injEq] at h
    obtain ⟨e1, e2, e3, e4⟩ := h
    rw [e1, e2, e3, e4]

theorem c1_witness :
    unpack_new_file_id 2 4 5 (-6) = unpack_new_file_id 2 4 5 7 ↔
      ((2 : Int), (4 : Int), (5 : Int), (-6 : Int)) = (2, 4, 5, 7) :=
  c1_derived_key_eq_iff_tuple_eq 2 4 5 (-6) 2 4 5 7
    (by decide) (by decide) (by decide) (by decide)
    (by decide) (by decide) (by decide) (by decide)

/-- C4: the single-token predicate requires the token bounded on each side by
a word boundary or one of `. + - _` and is case-insensitive, and multi-token
text matches across separator runs: "my file" matches "my_file_2024.mp4",
"cat" does not match "category.mp4" but matches "my.cat.mkv". -/

theorem c4_query_builder_boundaries :
    buildPred "my file" "my_file_2024.mp4" = true ∧
    buildPred "cat" "category.mp4" = false ∧
    buildPred "cat" "my.cat.mkv" = true ∧
    buildPred "CAT" "my.cat.mkv" = true ∧
    buildPred "cat" "My.CAT.mkv" = true := by
  decide

theorem getCol_setCol_same (t : TriDB) (c : CName) (col : Collection) :
    getCol (setCol t c col) c = col := by
  cases c <;> rfl

theorem getCol_setCol_ne (t : TriDB) (c c2 : CName) (col : Collection) (h : c2 ≠ c) :
    getCol (setCol t c col) c2 = getCol t c2 := by
  cases c <;> cases c2 <;> first | rfl | exact absurd rfl h

theorem saveDoc_id (media : Media) (name : String) (now : Nat) :
    (saveDoc media name now).id = mediaKey media := rfl

theorem insert_one_ok (c : Collection) (d : Doc)
    (h1 : colHasId c d.id = false) (h2 : c.full = false) :
    insert_one c d = .ok ⟨c.docs ++ [d], c.full⟩ := by
  unfold insert_one
  simp [h1, h2]

theorem insert_one_dup (c : Collection) (d : Doc) (h1 : colHasId c d.id = true) :
    insert_one c d = .dupKey := by
  unfold insert_one
  simp [h1]

theorem insert_one_full (c : Collection) (d : Doc)
    (h1 : colHasId c d.id = false) (h2 : c.full = true) :
    insert_one c d = .opFailure := by
  unfold insert_one
  simp [h1, h2]

/-- C2: inserting the same record (same derived key) twice into the same
partition yields `'suc'` then `'dup'`; the duplicate attempt leaves the state
(and hence the existing record) untouched, and the partition's record count
grows by exactly one. -/

theorem getCol_setFirst_same (s : DBState) (c : CName) (col : Collection) :
    getCol (setFirst s c col).first c = col := getCol_setCol_same _ _ _

theorem getCol_setFirst_ne (s : DBState) (c c2 : CName) (col : Collection) (h : c2 ≠ c) :
    getCol (setFirst s c col).first c2 = getCol s.first c2 := getCol_setCol_ne _ _ _ _ h

theorem second_setFirst (s : DBState) (c : CName) (col : Collection) :
    (setFirst s c col).second = s.second := rfl

theorem c2_duplicate_insert_suc_then_dup (s : DBState) (media : Media) (name : String)
    (now now2 : Nat)
    (hdup : colHasId (getCol s.first (parseCollectionName name)) (mediaKey media) = false)
    (hfull : (getCol s.first (parseCollectionName name)).full = false) :
    ∃ s1, save_file s media name now = some (("suc", name), s1) ∧
      save_file s1 media name now2 = some (("dup", name), s1) ∧
      (getCol s1.first (parseCollectionName name)).docs.length
        = (getCol s.first (parseCollectionName name)).docs.length + 1 := by
  have h1 := insert_one_ok (getCol s.first (parseCollectionName name)) (saveDoc media name now)
    (by rw [saveDoc_id]; exact hdup) hfull
  refine ⟨setFirst s (parseCollectionName name)
    ⟨(getCol s.first (parseCollectionName name)).docs ++ [saveDoc media name now],
     (getCol s.first (parseCollectionName name)).full⟩, ?_, ?_, ?_⟩
  · unfold save_file
    rw [h1]
  · have h2 : colHasId
        ⟨(getCol s.first (parseCollectionName name)).docs ++ [saveDoc media name now],
         (getCol s.first (parseCollectionName name)).full⟩ (saveDoc media name now2).id
        = true := by
      simp [colHasId, saveDoc_id]
    unfold save_file
    rw [getCol_setFirst_same, insert_one_dup _ _ h2]
  · rw [getCol_setFirst_same]
    simp

theorem c2_witness :
    ∃ s1, save_file ⟨⟨⟨[], false⟩, ⟨[], false⟩, ⟨[], false⟩⟩, none⟩
        ⟨2, 4, 5, 6, "Test_File.mkv", "cap", 100, "video/mkv"⟩ "primary" 10
        = some (("suc", "primary"), s1) ∧
      save_file s1 ⟨2, 4, 5, 6, "Test_File.mkv", "cap", 100, "video/mkv"⟩ "primary" 20
        = some (("dup", "primary"), s1) ∧
      (getCol s1.first (parseCollectionName "primary")).docs.length
        = (getCol (⟨⟨⟨[], false⟩, ⟨[], false⟩, ⟨[], false⟩⟩, none⟩ : DBState).first
            (parseCollectionName "primary")).docs.length + 1 :=
  c2_duplicate_insert_suc_then_dup _ _ "primary" 10 20 (by decide) (by decide)

/-- C3: when the primary store signals a capacity failure, `save_file` retries
the very same document against the configured overflow store; with no overflow
store configured it returns the `'err'` outcome to the caller with the state
unchanged (no exception, record not silently dropped). -/

theorem c3_store_full_overflow_or_err (s : DBState) (media : Media) (name : String) (now : Nat)
    (hdup : colHasId (getCol s.first (parseCollectionName name)) (mediaKey media) = false)
    (hfull : (getCol s.first (parseCollectionName name)).full = true) :
    (s.second = none → save_file s media name now = some (("err", name), s)) ∧
    (∀ sec, s.second = some sec →
      save_file s media name now =
        match insert_one (getCol sec (parseCollectionName name)) (saveDoc media name now) with
        | .ok c2 => some (("suc", "second_" ++ name),
            { s with second := some (setCol sec (parseCollectionName name) c2) })
        | .dupKey => some (("dup", "second_" ++ name), s)
        | .opFailure => none) := by
  have hins := insert_one_full _ (saveDoc media name now)
    (by rw [saveDoc_id]; exact hdup) hfull
  constructor
  · intro hnone
    unfold save_file
    rw [hins, hnone]
  · intro sec hsec
    unfold save_file
    rw [hins, hsec]

theorem c3_witness :
    save_file ⟨⟨⟨[], true⟩, ⟨[], false⟩, ⟨[], false⟩⟩, none⟩
        ⟨2, 4, 5, 6, "Test_File.mkv", "cap", 100, "video/mkv"⟩ "primary" 3
      = some (("err", "primary"),
          ⟨⟨⟨[], true⟩, ⟨[], false⟩, ⟨[], false⟩⟩, none⟩) :=
  (c3_store_full_overflow_or_err _ _ "primary" 3 (by decide) (by decide)).1 rfl

/-- C5: `total` is computed before slicing, the window is
`[offset, offset+limit)`, and `next_offset = offset+limit` unless that reaches
the total, in which case the empty marker is returned; concretely, with
total 7 and limit 5 the first page holds 5 records with `next_offset = 5` and
the second page holds 2 with the exhaustion marker. -/

theorem c5_pagination (cfgv : Config) (s : DBState) (query : String)
    (cn : Option String) (k off : Nat) (lang : Option String) :
    ((get_search_results cfgv s query cn k off lang).total_results
        = (match lang with
           | some lg => (mergedResults cfgv s (buildPred query) cn).filter
               fun (f : Doc) => strContainsSub (strLower f.file_name) lg
           | none => mergedResults cfgv s (buildPred query) cn).length ∧
     (get_search_results cfgv s query cn k off lang).files
        = (((match lang with
             | some lg => (mergedResults cfgv s (buildPred query) cn).filter
                 fun (f : Doc) => strContainsSub (strLower f.file_name) lg
             | none => mergedResults cfgv s (buildPred query) cn).drop off).take k) ∧
     (get_search_results cfgv s query cn k off lang).next_offset
        = (if off + k ≥ (match lang with
             | some lg => (mergedResults cfgv s (buildPred query) cn).filter
                 fun (f : Doc) => strContainsSub (strLower f.file_name) lg
             | none => mergedResults cfgv s (buildPred query) cn).length
           then none else some (off + k))) ∧
    ((get_search_results ⟨false⟩ ex7 "" (some "primary") 5 0 none).files.length = 5 ∧
     (get_search_results ⟨false⟩ ex7 "" (some "primary") 5 0 none).next_offset = some 5 ∧
     (get_search_results ⟨false⟩ ex7 "" (some "primary") 5 0 none).total_results = 7 ∧
     (get_search_results ⟨false⟩ ex7 "" (some "primary") 5 5 none).files.length = 2 ∧
     (get_search_results ⟨false⟩ ex7 "" (some "primary") 5 5 none).next_offset = none ∧
     (get_search_results ⟨false⟩ ex7 "" (some "primary") 5 5 none).total_results = 7) := by
  constructor
  · cases lang <;> exact ⟨rfl, rfl, rfl⟩
  · decide

/-- C6 counterexample: the stored name `"English"` contains the caller's token
`"ENG"` as a case-insensitive substring (first conjunct, both sides lowered),
yet with `lang = "ENG"` the record is dropped and the recomputed total is `0`:
the code lowercases only the stored name (`lang in file['file_name'].lower()`),
not the caller's token, so retention is not case-insensitive in the token. -/

theorem c6_counterexample :
    strContainsSub (strLower "English") (strLower "ENG") = true ∧
    (get_search_results ⟨false⟩ exEng "" (some "primary") 10 0 (some "ENG")).files = [] ∧
    (get_search_results ⟨false⟩ exEng "" (some "primary") 10 0 (some "ENG")).total_results
      = 0 := by
  decide

/-- C6 (amended): with a language token, the retained records are exactly the
merged records whose **lowercased** stored name contains the caller's token
verbatim as a substring — case-insensitive in the stored name only, so a
caller must pass a lowercase token — and `total` is recomputed against this
filtered set before the pagination window is applied. -/

theorem c6_amended_lang_filter (cfgv : Config) (s : DBState) (query : String)
    (cn : Option String) (k off : Nat) (lg : String) :
    (get_search_results cfgv s query cn k off (some lg)).total_results
      = ((mergedResults cfgv s (buildPred query) cn).filter
          fun (f : Doc) => strContainsSub (strLower f.file_name) lg).length ∧
    (get_search_results cfgv s query cn k off (some lg)).files
      = ((((mergedResults cfgv s (buildPred query) cn).filter
          fun (f : Doc) => strContainsSub (strLower f.file_name) lg).drop off).take k) :=
  ⟨rfl, rfl⟩

theorem find?_none_of_any_false {α} {p : α → Bool} {l : List α} (h : l.any p = false) :
    l.find? p = none := by
  rw [List.find?_eq_none]
  intro x hx
  rw [List.any_eq_false] at h
  simpa using h x hx

theorem find?_append_none {α} (p : α → Bool) (l1 l2 : List α) (h : l1.find? p = none) :
    (l1 ++ l2).find? p = l2.find? p := by
  induction l1 with
  | nil => simp
  | cons x xs ih =>
    rw [List.find?_eq_none] at h
    have hx : p x = false := by simpa using h x (by simp)
    rw [List.cons_append, List.find?_cons_of_neg _ (by simp [hx])]
    exact ih (by rw [List.find?_eq_none]; intro y hy; exact h y (by simp [hy]))

theorem find?_eraseP_none {α} (p : α → Bool) :
    ∀ l : List α, l.countP p ≤ 1 → (l.eraseP p).find? p = none := by
  intro l
  induction l with
  | nil => intro _; rfl
  | cons x xs ih =>
    intro h
    by_cases hx : p x
    · rw [List.eraseP_cons, hx]
      simp only [cond_true]
      rw [List.countP_cons_of_pos _ _ hx] at h
      rw [List.find?_eq_none]
      intro y hy
      have : xs.countP p = 0 := by omega
      rw [List.countP_eq_zero] at this
      simpa using this y hy
    · have hx2 : p x = false := by simpa using hx
      rw [List.eraseP_cons, hx2]
      simp only [cond_false]
      rw [List.find?_cons_of_neg _ (by simp [hx2])]
      exact ih (by rw [List.countP_cons_of_neg _ _ hx] at h; exact h)

theorem mem_eraseP_of_not {α} (p : α → Bool) :
    ∀ l : List α, ∀ g ∈ l, p g = false → g ∈ l.eraseP p := by
  intro l
  induction l with
  | nil => intro g hg _; simp at hg
  | cons x xs ih =>
    intro g hg hp
    by_cases hx : p x
    · rw [List.eraseP_cons, hx]
      simp only [cond_true]
      rcases List.mem_cons.mp hg with hg | hg
      · subst hg; rw [hp] at hx; simp at hx
      · exact hg
    · have hx2 : p x = false := by simpa using hx
      rw [List.eraseP_cons, hx2]
      simp only [cond_false]
      rcases List.mem_cons.mp hg with hg | hg
      · subst hg; simp
      · exact List.mem_cons_of_mem _ (ih g hg hp)

/-- C8: for a key `k` (of a record present in source `A`) already present in
target `B`, `copy_file` returns the target-exists outcome via its explicit
pre-check — the distinctive message of that path, not a store
`DuplicateKeyError` — and leaves the whole state, in particular `B`'s record
for `k`, unchanged: no insert into `B` is attempted. -/

theorem c8_copy_rejects_target_collision (s : DBState) (k from_c to_c : String)
    (now : Nat) (f g : Doc)
    (hsrc : findId (getCol s.first (parseCollectionName from_c)).docs k = some f)
    (htgt : findId (getCol s.first (parseCollectionName to_c)).docs k = some g) :
    copy_file s k from_c to_c now
      = ((false, none, "File already exists in target collection"), s) := by
  unfold copy_file
  rw [hsrc, htgt]

theorem c8_witness :
    copy_file
      ⟨⟨⟨[{ id := "kk", file_name := "a", file_size := 1, caption := "",
            collection_type := "primary", file_type := "v", added_date := 0 }], false⟩,
        ⟨[{ id := "kk", file_name := "a", file_size := 1, caption := "",
            collection_type := "clouds", file_type := "v", added_date := 0 }], false⟩,
        ⟨[], false⟩⟩, none⟩
      "kk" "primary" "clouds" 5
      = ((false, none, "File already exists in target collection"),
        ⟨⟨⟨[{ id := "kk", file_name := "a", file_size := 1, caption := "",
              collection_type := "primary", file_type := "v", added_date := 0 }], false⟩,
          ⟨[{ id := "kk", file_name := "a", file_size := 1, caption := "",
              collection_type := "clouds", file_type := "v", added_date := 0 }], false⟩,
          ⟨[], false⟩⟩, none⟩) :=
  c8_copy_rejects_target_collision _ "kk" "primary" "clouds" 5
    { id := "kk", file_name := "a", file_size := 1, caption := "",
      collection_type := "primary", file_type := "v", added_date := 0 }
    { id := "kk", file_name := "a", file_size := 1, caption := "",
      collection_type := "clouds", file_type := "v", added_date := 0 }
    (by decide) (by decide)

/-- C10: when the destination insert fails during `move_file` — in particular
when the destination already holds the key, or signals a capacity failure —
the call returns `(False, error message)` and the whole state, in particular
the source record for `k`, is unchanged: the source delete only runs after a
successful destination insert. -/

theorem c10_move_failed_insert_keeps_source (s : DBState) (k from_c to_c : String)
    (now : Nat) (f : Doc)
    (hsrc : findId (getCol s.first (parseCollectionName from_c)).docs k = some f)
    (hfail : colHasId (getCol s.first (parseCollectionName to_c)) k = true ∨
      (colHasId (getCol s.first (parseCollectionName to_c)) k = false ∧
       (getCol s.first (parseCollectionName to_c)).full = true)) :
    ∃ msg, move_file s k from_c to_c now = ((false, msg), s) ∧
      msg ≠ "File moved successfully" := by
  have hfid : f.id = k := by simpa using List.find?_some hsrc
  have hfid2 : ({ f with collection_type := to_c, moved_date := some now } : Doc).id = k :=
    hfid
  rcases hfail with hdup | ⟨hnotdup, hfull⟩
  · have hins : insert_one (getCol s.first (parseCollectionName to_c))
        { f with collection_type := to_c, moved_date := some now } = .dupKey :=
      insert_one_dup _ _ (by rw [hfid2]; exact hdup)
    refine ⟨dupKeyErrMsg, ?_, by decide⟩
    simp only [move_file, hsrc, hins]
  · have hins : insert_one (getCol s.first (parseCollectionName to_c))
        { f with collection_type := to_c, moved_date := some now } = .opFailure :=
      insert_one_full _ _ (by rw [hfid2]; exact hnotdup) hfull
    refine ⟨opFailureErrMsg, ?_, by decide⟩
    simp only [move_file, hsrc, hins]

theorem c10_witness :
    ∃ msg, move_file
      ⟨⟨⟨[{ id := "kk", file_name := "a", file_size := 1, caption := "",
            collection_type := "primary", file_type := "v", added_date := 0 }], false⟩,
        ⟨[{ id := "kk", file_name := "b", file_size := 2, caption := "",
            collection_type := "clouds", file_type := "v", added_date := 0 }], false⟩,
        ⟨[], false⟩⟩, none⟩
      "kk" "primary" "clouds" 5
      = ((false, msg),
        ⟨⟨⟨[{ id := "kk", file_name := "a", file_size := 1, caption := "",
              collection_type := "primary", file_type := "v", added_date := 0 }], false⟩,
          ⟨[{ id := "kk", file_name := "b", file_size := 2, caption := "",
              collection_type := "clouds", file_type := "v", added_date := 0 }], false⟩,
          ⟨[], false⟩⟩, none⟩) ∧ msg ≠ "File moved successfully" :=
  c10_move_failed_insert_keeps_source _ "kk" "primary" "clouds" 5
    { id := "kk", file_name := "a", file_size := 1, caption := "",
      collection_type := "primary", file_type := "v", added_date := 0 }
    (by decide) (Or.inl (by decide))

theorem triFind_of_per (t : TriDB) (k : String) (b : CName) (f2 : Doc)
    (hper : ∀ c : CName, findId (getCol t c).docs k = if c = b then some f2 else none) :
    triFind t k = some f2 := by
  cases b with
  | primary =>
    have h1 := hper .primary
    rw [if_pos rfl] at h1
    unfold triFind
    rw [h1]
  | clouds =>
    have h1 := hper .primary
    rw [if_neg (by decide)] at h1
    have h2 := hper .clouds
    rw [if_pos rfl] at h2
    unfold triFind
    rw [h1, h2]
  | archive =>
    have h1 := hper .primary
    rw [if_neg (by decide)] at h1
    have h2 := hper .clouds
    rw [if_neg (by decide)] at h2
    have h3 := hper .archive
    rw [if_pos rfl] at h3
    unfold triFind
    rw [h1, h2, h3]

/-- C7: a successful `move_file(k, A, B)` writes the record to destination `B`
with the partition field set to `B`, a moved stamp added and the key
unchanged, and deletes it from source `A`; `get_file_details(k)` afterwards
returns exactly that record, whose partition is `B` and whose key is the
original `k`. -/

theorem c7_move_key_preserving (s : DBState) (k from_c to_c : String) (now : Nat) (f : Doc)
    (hsrc : findId (getCol s.first (parseCollectionName from_c)).docs k = some f)
    (hAB : parseCollectionName from_c ≠ parseCollectionName to_c)
    (honly : ∀ c : CName, c ≠ parseCollectionName from_c →
      colHasId (getCol s.first c) k = false)
    (hfullB : (getCol s.first (parseCollectionName to_c)).full = false)
    (huniq : (getCol s.first (parseCollectionName from_c)).docs.countP
      (fun (d : Doc) => d.id = k) ≤ 1) :
    ∃ s2, move_file s k from_c to_c now = ((true, "File moved successfully"), s2) ∧
      get_file_details s2 k
        = some { f with collection_type := to_c, moved_date := some now } ∧
      ({ f with collection_type := to_c, moved_date := some now } : Doc).id = k ∧
      ({ f with collection_type := to_c, moved_date := some now } : Doc).collection_type
        = to_c := by
  have hfid : f.id = k := by simpa using List.find?_some hsrc
  have hf2id : ({ f with collection_type := to_c, moved_date := some now } : Doc).id = k :=
    hfid
  have htgtB : colHasId (getCol s.first (parseCollectionName to_c)) k = false :=
    honly _ (Ne.symm hAB)
  have hins : insert_one (getCol s.first (parseCollectionName to_c))
      { f with collection_type := to_c, moved_date := some now }
      = .ok ⟨(getCol s.first (parseCollectionName to_c)).docs
          ++ [{ f with collection_type := to_c, moved_date := some now }],
          (getCol s.first (parseCollectionName to_c)).full⟩ :=
    insert_one_ok _ _ (by rw [hf2id]; exact htgtB) hfullB
  refine ⟨setFirst (setFirst s (parseCollectionName to_c)
      ⟨(getCol s.first (parseCollectionName to_c)).docs
        ++ [{ f with collection_type := to_c, moved_date := some now }],
        (getCol s.first (parseCollectionName to_c)).full⟩) (parseCollectionName from_c)
      (deleteId (getCol (setFirst s (parseCollectionName to_c)
        ⟨(getCol s.first (parseCollectionName to_c)).docs
          ++ [{ f with collection_type := to_c, moved_date := some now }],
          (getCol s.first (parseCollectionName to_c)).full⟩).first
        (parseCollectionName from_c)) k), ?_, ?_, hf2id, rfl⟩
  · simp only [move_file, hsrc, hins]
  · have hgA : getCol (setFirst s (parseCollectionName to_c)
        ⟨(getCol s.first (parseCollectionName to_c)).docs
          ++ [{ f with collection_type := to_c, moved_date := some now }],
          (getCol s.first (parseCollectionName to_c)).full⟩).first
        (parseCollectionName from_c) = getCol s.first (parseCollectionName from_c) :=
      getCol_setFirst_ne _ _ _ _ hAB
    have hper : ∀ c : CName,
        findId (getCol (setFirst (setFirst s (parseCollectionName to_c)
          ⟨(getCol s.first (parseCollectionName to_c)).docs
            ++ [{ f with collection_type := to_c, moved_date := some now }],
            (getCol s.first (parseCollectionName to_c)).full⟩) (parseCollectionName from_c)
          (deleteId (getCol (setFirst s (parseCollectionName to_c)
            ⟨(getCol s.first (parseCollectionName to_c)).docs
              ++ [{ f with collection_type := to_c, moved_date := some now }],
              (getCol s.first (parseCollectionName to_c)).full⟩).first
            (parseCollectionName from_c)) k)).first c).docs k
          = if c = parseCollectionName to_c
            then some { f with collection_type := to_c, moved_date := some now }
            else none := by
      intro c
      by_cases hcB : c = parseCollectionName to_c
      · subst hcB
        rw [if_pos rfl, getCol_setFirst_ne _ _ _ _ (Ne.symm hAB), getCol_setFirst_same]
        show ((getCol s.first (parseCollectionName to_c)).docs
          ++ [{ f with collection_type := to_c, moved_date := some now }]).find?
            (fun (d : Doc) => d.id = k) = _
        rw [find?_append_none _ _ _ (find?_none_of_any_false htgtB),
          List.find?_cons_of_pos _ (by simp [hfid])]
      · rw [if_neg hcB]
        by_cases hcA : c = parseCollectionName from_c
        · subst hcA
          rw [getCol_setFirst_same, hgA]
          exact find?_eraseP_none _ _ huniq
        · rw [getCol_setFirst_ne _ _ _ _ hcA, getCol_setFirst_ne _ _ _ _ hcB]
          exact find?_none_of_any_false (honly c hcA)
    have htri := triFind_of_per _ k (parseCollectionName to_c)
      { f with collection_type := to_c, moved_date := some now } hper
    unfold get_file_details
    rw [htri]

theorem c7_witness :
    ∃ s2, move_file
      ⟨⟨⟨[{ id := "kk", file_name := "a b", file_size := 1, caption := "",
            collection_type := "primary", file_type := "v", added_date := 0 }], false⟩,
        ⟨[], false⟩, ⟨[], false⟩⟩, none⟩
      "kk" "primary" "clouds" 9
      = ((true, "File moved successfully"), s2) ∧
      get_file_details s2 "kk"
        = some { id := "kk", file_name := "a b", file_size := 1, caption := "",
                 collection_type := "clouds", file_type := "v", added_date := 0,
                 moved_date := some 9 } ∧
      ({ id := "kk", file_name := "a b", file_size := 1, caption := "",
         collection_type := "clouds", file_type := "v", added_date := 0,
         moved_date := some 9 } : Doc).id = "kk" ∧
      ({ id := "kk", file_name := "a b", file_size := 1, caption := "",
         collection_type := "clouds", file_type := "v", added_date := 0,
         moved_date := some 9 } : Doc).collection_type = "clouds" :=
  c7_move_key_preserving _ "kk" "primary" "clouds" 9
    { id := "kk", file_name := "a b", file_size := 1, caption := "",
      collection_type := "primary", file_type := "v", added_date := 0 }
    (by decide) (by decide) (by decide) (by decide) (by decide)

theorem colHasId_of_eq (c : Collection) {x y : String} (h : x = y) :
    colHasId c x = colHasId c y := by rw [h]

/-- Loop invariant proof for `bulk_move_files`: with source and target
distinct, target not full, and pairwise-distinct ids in the worklist, the
loop returns the running count plus the number of worklist records whose id
is absent from the reference target contents (provided the current target
agrees with the reference on every worklist id), and every source document
whose id collides with the reference target survives untouched. -/

theorem bulkLoop_spec (to_c : String) (toC fromC : CName) (now : Nat) (tgt0 : Collection) :
    ∀ (fs : List Doc) (cnt : Nat) (st : DBState),
      fromC ≠ toC →
      (∀ f ∈ fs, colHasId (getCol st.first toC) f.id = colHasId tgt0 f.id) →
      (getCol st.first toC).full = false →
      (fs.map fun (f : Doc) => f.id).Nodup →
      ∃ st2, bulkLoop to_c toC fromC now fs cnt st
          = some (cnt + (fs.filter fun (f : Doc) => !colHasId tgt0 f.id).length, st2) ∧
        ∀ g ∈ (getCol st.first fromC).docs, colHasId tgt0 g.id = true →
          g ∈ (getCol st2.first fromC).docs := by
  intro fs
  induction fs with
  | nil =>
    intro cnt st _ _ _ _
    exact ⟨st, by simp [bulkLoop], fun g hg _ => hg⟩
  | cons f rest ih =>
    intro cnt st hAB hinv hfull hnodup
    have hmemf : f ∈ f :: rest := by simp
    have hnodup2 : (rest.map fun (f : Doc) => f.id).Nodup := by
      simp only [List.map_cons, List.nodup_cons] at hnodup
      exact hnodup.2
    have hnotin : f.id ∉ rest.map fun (f : Doc) => f.id := by
      simp only [List.map_cons, List.nodup_cons] at hnodup
      exact hnodup.1
    cases hcol : colHasId tgt0 f.id with
    | true =>
      have hins : insert_one (getCol st.first toC)
          { f with collection_type := to_c, moved_date := some now } = .dupKey :=
        insert_one_dup _ _ (by
          show colHasId (getCol st.first toC) f.id = true
          rw [hinv f hmemf]; exact hcol)
      obtain ⟨st2, heq, hrem⟩ := ih cnt st hAB
        (fun g hg => hinv g (by simp [hg])) hfull hnodup2
      refine ⟨st2, ?_, hrem⟩
      simp only [bulkLoop, hins, heq, List.filter_cons, hcol, Bool.not_true]
      rfl
    | false =>
      have hins : insert_one (getCol st.first toC)
          { f with collection_type := to_c, moved_date := some now }
          = .ok ⟨(getCol st.first toC).docs
              ++ [{ f with collection_type := to_c, moved_date := some now }],
              (getCol st.first toC).full⟩ :=
        insert_one_ok _ _ (by
          show colHasId (getCol st.first toC) f.id = false
          rw [hinv f hmemf]; exact hcol) hfull
      have hTne : toC ≠ fromC := Ne.symm hAB
      have hgetTo : getCol (setFirst (setFirst st toC
          ⟨(getCol st.first toC).docs
            ++ [{ f with collection_type := to_c, moved_date := some now }],
            (getCol st.first toC).full⟩) fromC
          (deleteId (getCol (setFirst st toC
            ⟨(getCol st.first toC).docs
              ++ [{ f with collection_type := to_c, moved_date := some now }],
              (getCol st.first toC).full⟩).first fromC) f.id)).first toC
          = ⟨(getCol st.first toC).docs
              ++ [{ f with collection_type := to_c, moved_date := some now }],
              (getCol st.first toC).full⟩ := by
        rw [getCol_setFirst_ne _ _ _ _ hTne, getCol_setFirst_same]
      have hgetFrom : getCol (setFirst (setFirst st toC
          ⟨(getCol st.first toC).docs
            ++ [{ f with collection_type := to_c, moved_date := some now }],
            (getCol st.first toC).full⟩) fromC
          (deleteId (getCol (setFirst st toC
            ⟨(getCol st.first toC).docs
              ++ [{ f with collection_type := to_c, moved_date := some now }],
              (getCol st.first toC).full⟩).first fromC) f.id)).first fromC
          = deleteId (getCol st.first fromC) f.id := by
        rw [getCol_setFirst_same, getCol_setFirst_ne _ _ _ _ hAB]
      obtain ⟨st2, heq, hrem⟩ := ih (cnt + 1) _ hAB
        (by
          intro g hg
          rw [hgetTo]
          have hgne : ¬ f.id = g.id := fun he => hnotin (he ▸ List.mem_map_of_mem _ hg)
          have : colHasId ⟨(getCol st.first toC).docs
              ++ [{ f with collection_type := to_c, moved_date := some now }],
              (getCol st.first toC).full⟩ g.id
              = colHasId (getCol st.first toC) g.id := by
            simp [colHasId, List.any_append, hgne]
          rw [this, hinv g (by simp [hg])])
        (by rw [hgetTo]; exact hfull) hnodup2
      refine ⟨st2, ?_, ?_⟩
      · simp only [bulkLoop, hins, heq, List.filter_cons, hcol, Bool.not_false]
        have harith : cnt + 1 + (rest.filter fun (f : Doc) => !colHasId tgt0 f.id).length
            = cnt + ((rest.filter fun (f : Doc) => !colHasId tgt0 f.id).length + 1) := by
          omega
        rw [harith]
        rfl
      · intro g hg hgcol
        have hgne : ¬ g.id = f.id := by
          intro he
          rw [colHasId_of_eq tgt0 he, hcol] at hgcol
          exact Bool.noConfusion hgcol
        have hg2 : g ∈ (deleteId (getCol st.first fromC) f.id).docs := by
          show g ∈ (getCol st.first fromC).docs.eraseP fun d => d.id = f.id
          exact mem_eraseP_of_not _ _ g hg (by simp [hgne])
        have := hrem g (by rw [hgetFrom]; exact hg2) hgcol
        exact this

/-- C9: `bulk_move_files` materializes the matching source records up front
and moves each one; a move whose key already exists in the target is skipped
without aborting the batch, the colliding record stays in the source
partition, and the returned count is exactly the number of matching records
whose key was not already present in the target. -/

theorem c9_bulk_move_count_and_skips (s : DBState) (query : String)
    (from_c to_c : String) (now : Nat)
    (hAB : parseCollectionName from_c ≠ parseCollectionName to_c)
    (hfull : (getCol s.first (parseCollectionName to_c)).full = false)
    (hnodup : ((getCol s.first (parseCollectionName from_c)).docs.map
      fun (d : Doc) => d.id).Nodup) :
    ∃ s2, bulk_move_files s query from_c to_c now
        = some ((((getCol s.first (parseCollectionName from_c)).docs.filter
            fun (d : Doc) => buildPred query d.file_name).filter
            fun (f : Doc) => !colHasId (getCol s.first (parseCollectionName to_c)) f.id).length,
          s2) ∧
      ∀ g ∈ (getCol s.first (parseCollectionName from_c)).docs,
        colHasId (getCol s.first (parseCollectionName to_c)) g.id = true →
          g ∈ (getCol s2.first (parseCollectionName from_c)).docs := by
  have hsub : (((getCol s.first (parseCollectionName from_c)).docs.filter
      fun (d : Doc) => buildPred query d.file_name).map fun (d : Doc) => d.id).Sublist
      ((getCol s.first (parseCollectionName from_c)).docs.map fun (d : Doc) => d.id) :=
    List.Sublist.map _ (List.filter_sublist _)
  obtain ⟨st2, heq, hrem⟩ := bulkLoop_spec to_c (parseCollectionName to_c)
    (parseCollectionName from_c) now (getCol s.first (parseCollectionName to_c))
    ((getCol s.first (parseCollectionName from_c)).docs.filter
      fun (d : Doc) => buildPred query d.file_name)
    0 s hAB (fun _ _ => rfl) hfull (hnodup.sublist hsub)
  refine ⟨st2, ?_, hrem⟩
  show bulkLoop to_c (parseCollectionName to_c) (parseCollectionName from_c) now _ 0 s = _
  rw [heq, Nat.zero_add]

theorem c9_witness : ∃ s2, bulk_move_files exB "" "clouds" "archive" 9 = some (2, s2) := by
  obtain ⟨s2, heq, -⟩ := c9_bulk_move_count_and_skips exB "" "clouds" "archive" 9
    (by decide) (by decide) (by decide)
  have hl : (((getCol exB.first (parseCollectionName "clouds")).docs.filter
      fun (d : Doc) => buildPred "" d.file_name).filter
      fun (f : Doc) => !colHasId (getCol exB.first (parseCollectionName "archive")) f.id).length
      = 2 := by decide
  rw [hl] at heq
  exact ⟨s2, heq⟩

end Multi
